import Mathlib

/-!
# AI Enrichment Pipeline — shallow embedding and verification

This file embeds the core of the repository's AI enrichment pipeline and
proves the frozen claims about it.  The embedded operations are translated
from the source material under `src/`:

* the expiring cache (`AICache`) from the cache implementation documented in
  `src/docs/RATE_LIMITING_AND_RETRY.md` (schema, `get`/`set`/`cleanup_expired`/
  `clear_all` semantics);
* the usage tracker (`UsageStats`, `addUsage`) from
  `src/docs/TOKEN_COUNTING_AND_ASYNC.md` (cost formula, counters);
* the rate-limited retrying transport from the quoted `_make_api_call` body and
  `Retry(...)` configuration in `src/docs/RATE_LIMITING_AND_RETRY.md`;
* the tiered resolution flow from the Request Flow of
  `src/RULE_DATABASE_COMPLETE.md` (in-memory cache → persistent cache →
  rule database → budget-gated AI call);
* the frontend stat fetchers and stat displays from
  `src/frontend/src/lib/api.ts` and the unnamed dashboard/settings pages.

Timestamps and durations are rationals (seconds); token counts are naturals;
money is rational (USD).
-/

namespace AccessAI

/-! ## Data model -/

/-- An accessibility finding, the unit of work for enrichment
(identifier, free-text description, rule identifier, optional framework tag,
optional severity hint). -/
structure Finding where
  fid : Nat
  description : String
  ruleId : String
  framework : Option String
  severity : Option String
deriving DecidableEq, Repr

/-- Provenance tag on an enriched finding: which tier produced its guidance. -/
inductive Provenance where
  | ruleTable
  | cacheHit
  | aiCall
  | fallback
deriving DecidableEq, Repr

/-- A finding plus the guidance produced for it and the provenance tag. -/
structure EnrichedFinding where
  finding : Finding
  guidance : String
  provenance : Provenance
deriving DecidableEq, Repr

/-! ## Expiring cache

Translated from the `AICache` documented in `src/docs/RATE_LIMITING_AND_RETRY.md`:
a table of rows `(key, value, created_at, expires_at)`; `get` returns a value
only when `expires_at > now` (lazy expiration, the row is not touched);
`set` rewrites the row for its key with fresh timestamps (last writer wins);
`cleanup_expired` deletes exactly the rows with `expires_at <= now` and
returns how many it deleted; `clear_all` deletes every row and returns the
count. -/

/-- One persisted cache row. -/
structure CacheRow where
  key : String
  value : String
  createdAt : ℚ
  expiresAt : ℚ
deriving DecidableEq, Repr

/-- The expiring cache: its rows plus the configured TTL (seconds). -/
structure AICache where
  rows : List CacheRow
  ttl : ℚ
deriving DecidableEq, Repr

namespace AICache

/-- Row lookup by key (the `key` column is unique / primary). -/
def findRow (c : AICache) (k : String) : Option CacheRow :=
  c.rows.find? (fun r => r.key = k)

/-- Modelled from the spec: the cache module (`accessibility_ai/ai/cache.py`)
is not under `src/`.  Operation `get`: the stored value if a row for the key
exists and is unexpired (`expires_at > now`); absent otherwise.  Reads only —
never deletes a row. -/
def get (c : AICache) (now : ℚ) (k : String) : Option String :=
  match c.findRow k with
  | some r => if now < r.expiresAt then some r.value else none
  | none => none

/-- Modelled from the spec: the cache module is not under `src/`.
Operation `set`: replace any row for the key by a fresh row with
`created_at = now` and `expires_at = now + ttl` (last writer wins). -/
def set (c : AICache) (now : ℚ) (k v : String) : AICache :=
  { c with rows := ⟨k, v, now, now + c.ttl⟩ :: c.rows.filter (fun r => ¬ r.key = k) }

/-- Modelled from the spec: the cache module is not under `src/`.
Operation `cleanup_expired`: physically delete exactly the rows with
`expires_at <= now`; return the surviving cache and the deleted count. -/
def cleanupExpired (c : AICache) (now : ℚ) : AICache × Nat :=
  ({ c with rows := c.rows.filter (fun r => now < r.expiresAt) },
   (c.rows.filter (fun r => r.expiresAt ≤ now)).length)

/-- Modelled from the spec: the cache module is not under `src/`.
Operation `clear_all`: delete every row; return the emptied cache and the
count. -/
def clearAll (c : AICache) : AICache × Nat :=
  ({ c with rows := [] }, c.rows.length)

end AICache

/-! ## Usage tracker

Translated from `UsageStats` / token counting in
`src/docs/TOKEN_COUNTING_AND_ASYNC.md`: cumulative counters plus the cost
formula `prompt_tokens / 1,000,000 × prompt_price +
completion_tokens / 1,000,000 × completion_price`, accumulated per call. -/

/-- Cumulative usage counters of the AI client. -/
structure UsageStats where
  totalRequests : Nat
  successfulRequests : Nat
  failedRequests : Nat
  totalPromptTokens : Nat
  totalCompletionTokens : Nat
  totalTokens : Nat
  estimatedCostUsd : ℚ
deriving DecidableEq, Repr

/-- The all-zero usage snapshot (fresh client / after `reset_usage_stats`). -/
def UsageStats.empty : UsageStats := ⟨0, 0, 0, 0, 0, 0, 0⟩

/-- Per-model pricing, dollars per million tokens. -/
structure Pricing where
  perMillionPrompt : ℚ
  perMillionCompletion : ℚ
deriving DecidableEq, Repr

/-- The cost added by one call:
`promptTokens/1_000_000 * promptPrice + completionTokens/1_000_000 * completionPrice`. -/
def callCost (p : Pricing) (promptTokens completionTokens : Nat) : ℚ :=
  (promptTokens : ℚ) / 1000000 * p.perMillionPrompt
    + (completionTokens : ℚ) / 1000000 * p.perMillionCompletion

/-- Modelled from the spec: `accessibility_ai/simple_ai.py` is not under
`src/`; the cost formula is quoted in `src/docs/TOKEN_COUNTING_AND_ASYNC.md`.
Recording one outcome (`UsageStats.add_usage`): bump the request counters,
accumulate the token counts and add this call's cost to the running total. -/
def addUsage (s : UsageStats) (success : Bool) (promptTokens completionTokens : Nat)
    (p : Pricing) : UsageStats :=
  { totalRequests := s.totalRequests + 1
    successfulRequests := s.successfulRequests + (if success then 1 else 0)
    failedRequests := s.failedRequests + (if success then 0 else 1)
    totalPromptTokens := s.totalPromptTokens + promptTokens
    totalCompletionTokens := s.totalCompletionTokens + completionTokens
    totalTokens := s.totalTokens + promptTokens + completionTokens
    estimatedCostUsd := s.estimatedCostUsd + callCost p promptTokens completionTokens }

/-! ## Rate-limited retrying transport

Translated from the quoted client code in `src/docs/RATE_LIMITING_AND_RETRY.md`:
the urllib3 `Retry(total=3, backoff_factor=1,
status_forcelist=[429, 500, 502, 503, 504], allowed_methods=["POST"])`
strategy mounted on the session, and the `_make_api_call` body that holds the
rate-limiter lock around sleep, POST and the `last_call_time` update. -/

/-- The outcome of one HTTP attempt, as seen by the retry layer:
a 2xx body with its token usage, a bare HTTP status, or a transport-level
error (timeout / connection failure). -/
inductive AttemptOutcome where
  | ok (resp : String) (promptTokens completionTokens : Nat)
  | httpStatus (code : Nat)
  | transportError
deriving DecidableEq, Repr

/-- The `status_forcelist` of the retry strategy. -/
def statusForcelist : List Nat := [429, 500, 502, 503, 504]

/-- How the transport classifies one attempt. -/
inductive StepClass where
  | success
  | retryable
  | terminal
deriving DecidableEq, Repr

/-- Status classification: 2xx is success, a forcelist status is retried,
everything else (in particular any other 4xx) is terminal. -/
def classifyStatus (code : Nat) : StepClass :=
  if 200 ≤ code ∧ code < 300 then .success
  else if code ∈ statusForcelist then .retryable
  else .terminal

/-- Attempt classification: a body is success, a status goes through
`classifyStatus`, and a transport-level error (timeout, connection failure)
is retryable. -/
def classifyOutcome : AttemptOutcome → StepClass
  | .ok _ _ _ => .success
  | .httpStatus c => classifyStatus c
  | .transportError => .retryable

/-- Retry configuration: `total` retries and the backoff factor. -/
structure RetryConfig where
  total : Nat
  backoffFactor : ℚ
deriving DecidableEq, Repr

/-- The configuration quoted in the source: 3 retries, factor 1. -/
def defaultRetryConfig : RetryConfig := ⟨3, 1⟩

/-- Backoff before the retry with 0-based attempt index `a`:
`backoff_factor * 2 ^ a` seconds. -/
def backoffWait (factor : ℚ) (a : Nat) : ℚ := factor * 2 ^ a

/-- Terminal result of one transport call (after any internal retries). -/
inductive TransportResult where
  | success (resp : String) (promptTokens completionTokens : Nat)
  | failure
deriving DecidableEq, Repr

/-- Modelled from the spec: the retry loop lives inside urllib3's `Retry`
adapter, not in this repository's `src/`; the loop follows the quoted
configuration and the documented backoff schedule.  `oracle i` is the outcome
of the `i`-th attempt (0-based); `retriesLeft` counts the retries still
allowed.  Returns the terminal result, the number of attempts performed, and
the list of backoff waits slept between attempts. -/
def runTransportAux (cfg : RetryConfig) (oracle : Nat → AttemptOutcome) :
    Nat → Nat → TransportResult × Nat × List ℚ
  | retriesLeft, i =>
    match oracle i with
    | .ok resp pt ct => (.success resp pt ct, i + 1, [])
    | out =>
      match classifyOutcome out with
      | .retryable =>
        match retriesLeft with
        | 0 => (.failure, i + 1, [])
        | r + 1 =>
          let rest := runTransportAux cfg oracle r (i + 1)
          (rest.1, rest.2.1, backoffWait cfg.backoffFactor i :: rest.2.2)
      | _ => (.failure, i + 1, [])

/-- One transport call: run the retry loop from attempt 0 with `cfg.total`
retries available. -/
def runTransport (cfg : RetryConfig) (oracle : Nat → AttemptOutcome) :
    TransportResult × Nat × List ℚ :=
  runTransportAux cfg oracle cfg.total 0

/-- Record the terminal result of a transport call into the usage stats:
a success records its token usage, a failure records a failed request. -/
def recordResult (s : UsageStats) (p : Pricing) : TransportResult → UsageStats
  | .success _ pt ct => addUsage s true pt ct p
  | .failure => addUsage s false 0 0 p

/-- One transport call together with its usage accounting. -/
def transportCall (cfg : RetryConfig) (p : Pricing) (s : UsageStats)
    (oracle : Nat → AttemptOutcome) :
    TransportResult × UsageStats × Nat × List ℚ :=
  let r := runTransport cfg oracle
  (r.1, recordResult s p r.1, r.2.1, r.2.2)

/-! ### The rate limiter, as written in the source

The quoted `_make_api_call` body is

```text
with self._rate_limiter:
    elapsed = time.time() - self._last_call_time
    if elapsed < self._min_interval:
        time.sleep(self._min_interval - elapsed)
    response = self.session.post(...)
    self._last_call_time = time.time()
```

so inside the lock the events are: check/sleep, POST, record
`last_call_time`, release.  `rateLimiterEvents` records that order literally;
`runCalls` is the functional model of a sequence of calls through this code
(the lock serializes whole bodies, so the calls execute one after another). -/

/-- The events of one pass through the rate limiter, in source order. -/
inductive RLEvent where
  | acquireLock
  | throttleSleep
  | networkPost
  | recordLastCallTime
  | releaseLock
deriving DecidableEq, Repr

/-- The event order of `_make_api_call` as quoted in
`src/docs/RATE_LIMITING_AND_RETRY.md` (lines 25–34): the timestamp is
recorded after the POST returns and before the lock is released. -/
def rateLimiterEvents : List RLEvent :=
  [.acquireLock, .throttleSleep, .networkPost, .recordLastCallTime, .releaseLock]

/-- One dispatch request: when the caller is ready to enter the limiter and
how long its network call takes. -/
structure CallReq where
  ready : ℚ
  duration : ℚ
deriving DecidableEq, Repr

/-- The start and finish times of one dispatched call. -/
structure CallTimes where
  start : ℚ
  finish : ℚ
deriving DecidableEq, Repr

/-- Run a sequence of calls through the source's rate limiter.
State: `lastCall` (the recorded `last_call_time`, taken *after* the POST
returns) and `lockFree` (when the lock is next available — it is held across
the POST).  A call acquires the lock at `max ready lockFree`, sleeps until
`lastCall + minInterval` if needed, POSTs for `duration`, then records the
finish time as `lastCall` and releases. -/
def runCalls (minInterval : ℚ) : ℚ → ℚ → List CallReq → List CallTimes
  | _, _, [] => []
  | lastCall, lockFree, c :: cs =>
    let acquire := max c.ready lockFree
    let start := max acquire (lastCall + minInterval)
    let finish := start + c.duration
    ⟨start, finish⟩ :: runCalls minInterval finish finish cs

/-- Separation of a timeline by `I`: each start is at least `I` after the
previous one. -/
def startSeparated (I : ℚ) : List CallTimes → Prop
  | [] => True
  | [_] => True
  | a :: b :: rest => a.start + I ≤ b.start ∧ startSeparated I (b :: rest)

/-! ## Tiered resolution engine

Translated from the Request Flow of `src/RULE_DATABASE_COMPLETE.md`
(lines 89–107):

```text
Issue detected
  → Check in-memory cache?        (cache miss ↓)
  → Check persistent cache?       (cache miss ↓)
  → Check rule database?          (requires_ai=False → return rule-DB guidance)
  → (requires_ai=True OR unknown rule) Check AI budget?
  → (within budget) Call AI → return enhanced analysis
```

with the budget discipline described alongside it (and in the spec): the
budget is decremented once per dispatched AI call, the transport's internal
retries belong to that one call, a successful AI result is written to the
cache, and when the budget is exhausted or the AI call terminally fails the
finding falls back to generic guidance. -/

/-- One entry of the static rule table: whether the rule requires AI and the
pre-written guidance. -/
structure RuleEntry where
  requiresAI : Bool
  guidance : String
deriving DecidableEq, Repr

/-- The static rule table, keyed by rule identifier. -/
def RuleTable := List (String × RuleEntry)

/-- Rule table lookup. -/
def lookupRule (t : RuleTable) (ruleId : String) : Option RuleEntry :=
  (t.find? (fun e => e.1 = ruleId)).map Prod.snd

/-- Deterministic cache key of a finding: its content plus framework tag. -/
def cacheKey (f : Finding) : String :=
  f.ruleId ++ "|" ++ f.description ++ "|" ++ f.framework.getD ""

/-- The generic non-AI fallback guidance. -/
def fallbackGuidance : String := "generic accessibility guidance"

/-- Observable steps of one resolution, in the order they happen. -/
inductive Step where
  | memCacheRead
  | diskCacheRead
  | ruleTableLookup
  | budgetDecrement
  | networkDispatch
  | cacheWrite
  | fallbackUsed
deriving DecidableEq, Repr

/-- Mutable state threaded through the pipeline: both caches, the remaining
AI budget of the batch, and the usage stats. -/
structure PipelineState where
  memCache : AICache
  diskCache : AICache
  budget : Nat
  stats : UsageStats
deriving DecidableEq, Repr

/-- Modelled from the spec: the gating code (`accessibility_ai/prioritizer.py`
and `analyzer.py`) is not under `src/`; the budget discipline follows the
spec's words and the budget lines of `src/RULE_DATABASE_COMPLETE.md`.  The AI
tier of `resolve`: reached when the rule requires AI or is unknown, after
both caches missed.  If budget remains, decrement it once, run one transport
call (whose internal retries are driven by `oracle`), on success write the
result into both caches and tag `ai-call`; on terminal transport failure, or
with no budget left, tag `fallback`. -/
def resolveAITier (cfg : RetryConfig) (p : Pricing) (now : ℚ)
    (oracle : Nat → AttemptOutcome) (st : PipelineState) (f : Finding)
    (seen : List Step) : EnrichedFinding × PipelineState × List Step :=
  match st.budget with
  | 0 => (⟨f, fallbackGuidance, .fallback⟩, st, seen ++ [.fallbackUsed])
  | b + 1 =>
    let call := transportCall cfg p st.stats oracle
    match call.1 with
    | .success resp _ _ =>
      (⟨f, resp, .aiCall⟩,
       { st with
           budget := b
           stats := call.2.1
           memCache := st.memCache.set now (cacheKey f) resp
           diskCache := st.diskCache.set now (cacheKey f) resp },
       seen ++ [.budgetDecrement, .networkDispatch, .cacheWrite])
    | .failure =>
      (⟨f, fallbackGuidance, .fallback⟩,
       { st with budget := b, stats := call.2.1 },
       seen ++ [.budgetDecrement, .networkDispatch, .fallbackUsed])

/-- Resolve one finding through the tiers: in-memory cache, persistent
cache, rule table, budget-gated AI call, generic fallback.  Returns the
enriched finding, the updated state and the trace of steps taken. -/
def resolve (table : RuleTable) (cfg : RetryConfig) (p : Pricing) (now : ℚ)
    (oracle : Nat → AttemptOutcome) (st : PipelineState) (f : Finding) :
    EnrichedFinding × PipelineState × List Step :=
  let k := cacheKey f
  match st.memCache.get now k with
  | some v => (⟨f, v, .cacheHit⟩, st, [.memCacheRead])
  | none =>
    match st.diskCache.get now k with
    | some v => (⟨f, v, .cacheHit⟩, st, [.memCacheRead, .diskCacheRead])
    | none =>
      match lookupRule table f.ruleId with
      | some e =>
        if e.requiresAI then
          resolveAITier cfg p now oracle st f
            [.memCacheRead, .diskCacheRead, .ruleTableLookup]
        else
          (⟨f, e.guidance, .ruleTable⟩, st,
           [.memCacheRead, .diskCacheRead, .ruleTableLookup])
      | none =>
        resolveAITier cfg p now oracle st f
          [.memCacheRead, .diskCacheRead, .ruleTableLookup]

/-- Resolve a whole batch against the shared state: each finding is resolved
in turn (the shared budget makes the state sequential), with `oracles i` the
attempt outcomes of the AI call possibly made for `findings[i]`.  Returns
the enriched findings in input order, the final state, and the concatenated
trace. -/
def resolveBatch (table : RuleTable) (cfg : RetryConfig) (p : Pricing) (now : ℚ)
    (oracles : Nat → Nat → AttemptOutcome) :
    PipelineState → Nat → List Finding →
      List EnrichedFinding × PipelineState × List Step
  | st, _, [] => ([], st, [])
  | st, i, f :: fs =>
    let r := resolve table cfg p now (oracles i) st f
    let rest := resolveBatch table cfg p now oracles r.2.1 (i + 1) fs
    (r.1 :: rest.1, rest.2.1, r.2.2 ++ rest.2.2)

/-! ## Batch orchestrator

Modelled from the spec: the body of `analyze_batch_async`
(`src/accessibility_ai/simple_ai.py`) is not under `src/`;
`src/docs/TOKEN_COUNTING_AND_ASYNC.md` (lines 306–317) records only that it
bounds concurrency with an `asyncio.Semaphore` and "Returns results in input
order".  We model the order-independence: each index `i` gets a task whose
result is `work i findings[i]`; tasks finish in an arbitrary completion
order (any permutation of the indices — every schedule a semaphore admits is
one); each completed task writes its result at its own index of a pre-sized
result array. -/

/-- Modelled from the spec: the body of `analyze_batch_async` is not under
`src/`.  Write the results of the tasks into the positional slot of each,
following the completion order. -/
def collectInOrder (work : Nat → Finding → EnrichedFinding) (findings : List Finding) :
    List Nat → List (Option EnrichedFinding) → List (Option EnrichedFinding)
  | [], acc => acc
  | i :: rest, acc =>
    collectInOrder work findings rest
      (acc.set i ((findings.get? i).map (work i)))

/-- Modelled from the spec: the body of `analyze_batch_async` is not under
`src/`.  The batch entry point: results collected positionally under an
arbitrary completion order `order`.  `maxConcurrent` bounds how many tasks
are in flight at once; it constrains which completion orders can occur but
plays no role in where a result lands. -/
def resolveAll (work : Nat → Finding → EnrichedFinding) (findings : List Finding)
    (maxConcurrent : Nat) (order : List Nat) : List (Option EnrichedFinding) :=
  let _ := maxConcurrent
  collectInOrder work findings order (List.replicate findings.length none)

/-! ## Frontend: AI-stats fetchers and stat displays

Translated from `src/frontend/src/lib/api.ts` and the dashboard/settings
pages (`src/unnamed/part_000`, `src/unnamed/part_002`). -/

/-- The shape of the usage-stats payload of `/ai/usage-stats`. -/
structure UsageStatsPayload where
  total_requests : Nat
  successful_requests : Nat
  failed_requests : Nat
  total_prompt_tokens : Nat
  total_completion_tokens : Nat
  total_tokens : Nat
  estimated_cost_usd : ℚ
  success_rate : ℚ
deriving DecidableEq, Repr

/-- What `getAIUsageStats` returns to its caller. -/
structure AIUsageStatsResult where
  available : Bool
  stats : Option UsageStatsPayload
  error : Option String
deriving DecidableEq, Repr

/-- The shape of the cache-stats payload of `/ai/cache-stats`. -/
structure CacheStatsPayload where
  total_entries : Nat
  valid_entries : Nat
  expired_entries : Nat
  oldest_entry : Option String
  newest_entry : Option String
  ttl_days : Nat
deriving DecidableEq, Repr

/-- What `getAICacheStats` returns to its caller. -/
structure AICacheStatsResult where
  available : Bool
  stats : Option CacheStatsPayload
  error : Option String
deriving DecidableEq, Repr

/-- Function `getAIUsageStats` from `src/frontend/src/lib/api.ts`: the whole awaited
request sits in a `try`; a successful response's data is returned as-is, and
any thrown transport error `err` is caught and turned into
`\x7b available: false, error: String(err) \x7d`.  The HTTP outcome is the
`Except` argument, with `stringify` standing for JavaScript `String(err)`. -/
def getAIUsageStats {ε : Type} (stringify : ε → String)
    (httpResult : Except ε AIUsageStatsResult) : AIUsageStatsResult :=
  match httpResult with
  | .ok data => data
  | .error err => { available := false, stats := none, error := some (stringify err) }

/-- Function `getAICacheStats` from `src/frontend/src/lib/api.ts`: same try/catch
shape as `getAIUsageStats`, for the cache-stats endpoint. -/
def getAICacheStats {ε : Type} (stringify : ε → String)
    (httpResult : Except ε AICacheStatsResult) : AICacheStatsResult :=
  match httpResult with
  | .ok data => data
  | .error err => { available := false, stats := none, error := some (stringify err) }

/-- The number the Dashboard AI Performance Overview card renders for the
success rate (before the one-decimal formatting):
`(aiUsageStats.stats?.success_rate || 0) * 100` (`src/unnamed/part_000`). -/
def dashboardSuccessRateValue (success_rate : ℚ) : ℚ := success_rate * 100

/-- The number the Settings AI-stats section renders for the success rate
(before the one-decimal formatting): `usage?.success_rate` itself
(`src/unnamed/part_002`). -/
def settingsSuccessRateValue (success_rate : ℚ) : ℚ := success_rate

/-- The formatter `toFixed(1)` as used by both success-rate cards, modelled as the signed
number of tenths the rendered string shows: the value rounded to one
decimal. -/
def toFixedOne (x : ℚ) : ℤ := round (x * 10)

/-- Occurrences of one step in a trace. -/
def countStep (t : Step) : List Step → Nat
  | [] => 0
  | s :: rest => (if s = t then 1 else 0) + countStep t rest

/-- Findings of a batch result that were resolved by an AI call. -/
def countAICalls : List EnrichedFinding → Nat
  | [] => 0
  | e :: rest => (if e.provenance = .aiCall then 1 else 0) + countAICalls rest

/-- A sample finding whose rule the static table marks as not requiring AI. -/
def sampleFinding : Finding :=
  ⟨0, "Button has no accessible name", "button-name", none, none⟩

/-- A one-rule table marking `button-name` as fully rule-based. -/
def sampleTable : RuleTable :=
  [("button-name", ⟨false, "Add an accessible name to the button."⟩)]

/-- An empty cache with a 30-unit TTL. -/
def emptyCache : AICache := ⟨[], 30⟩

/-- A pipeline state with empty caches, budget 5 and zeroed stats. -/
def emptyState : PipelineState := ⟨emptyCache, emptyCache, 5, UsageStats.empty⟩

/-- A pipeline state whose persistent cache already holds a valid entry for
`sampleFinding` (created at 0, expiring at 100). -/
def warmState : PipelineState :=
  ⟨emptyCache, ⟨[⟨cacheKey sampleFinding, "cached guidance", 0, 100⟩], 30⟩, 5,
   UsageStats.empty⟩

/-! ## Theorems -/

/-- Filter partition of the cache rows: the rows `cleanup_expired` deletes
and the rows it keeps together account for every row. -/
theorem cache_filter_partition (l : List CacheRow) (now : ℚ) :
    (l.filter (fun r => r.expiresAt ≤ now)).length
      + (l.filter (fun r => now < r.expiresAt)).length = l.length := by
  induction l with
  | nil => rfl
  | cons a t ih =>
    by_cases h : a.expiresAt ≤ now
    · simp [List.filter_cons, h, not_lt.mpr h]
      omega
    · simp [List.filter_cons, h, not_le.mp h]
      omega

/-- C7: recording an outcome adds exactly
`promptTokens/1_000_000 * pricePerMillionPrompt +
completionTokens/1_000_000 * pricePerMillionCompletion` to the accumulated
cost; the increment does not depend on the snapshot it is added to (the
accumulated cost is never recomputed retroactively); and for 150 prompt
tokens and 85 completion tokens at 30 and 60 dollars per million the added
cost is 0.0096. -/
theorem cost_accumulation_C7 (s s' : UsageStats) (success success' : Bool)
    (pt ct : Nat) (p : Pricing) :
    (addUsage s success pt ct p).estimatedCostUsd
        = s.estimatedCostUsd
          + ((pt : ℚ) / 1000000 * p.perMillionPrompt
             + (ct : ℚ) / 1000000 * p.perMillionCompletion)
    ∧ (addUsage s success pt ct p).estimatedCostUsd - s.estimatedCostUsd
        = (addUsage s' success' pt ct p).estimatedCostUsd - s'.estimatedCostUsd
    ∧ callCost ⟨30, 60⟩ 150 85 = (0.0096 : ℚ) := by
  refine ⟨rfl, ?_, by norm_num [callCost]⟩
  simp [addUsage]

/-- C9: the frontend AI-stats fetchers are total — they are plain functions
of the HTTP outcome, so no exception escapes them — and on every transport
failure `err` both return `available := false`, no stats, and
`error := String(err)`. -/
theorem frontend_fetchers_degrade_C9 {ε : Type} (stringify : ε → String) (err : ε) :
    getAIUsageStats stringify (Except.error err)
        = { available := false, stats := none, error := some (stringify err) }
    ∧ getAICacheStats stringify (Except.error err)
        = { available := false, stats := none, error := some (stringify err) } :=
  ⟨rfl, rfl⟩

/-- C10 counterexample: at `success_rate = 0.0004` the Dashboard card
(`(r * 100).toFixed(1)`) and the Settings card (`r.toFixed(1)`) render the
same one-decimal number (both `0.0`) although `r ≠ 0`, so the two views can
display the same success-rate number at a nonzero rate. -/
theorem success_rate_display_C10_counterexample :
    toFixedOne (dashboardSuccessRateValue (1 / 2500))
        = toFixedOne (settingsSuccessRateValue (1 / 2500))
    ∧ (1 / 2500 : ℚ) ≠ 0 := by
  constructor
  · norm_num [toFixedOne, dashboardSuccessRateValue, settingsSuccessRateValue,
      round_eq]
  · norm_num

/-- C10 (amended): the Dashboard AI Performance Overview hands
`r * 100` to its one-decimal formatter while the Settings AI-stats section
hands `r` itself, and those two underlying display values are equal exactly
when `r = 0`; after the one-decimal rounding the two renderings may also
coincide for small nonzero `r`. -/
theorem success_rate_display_C10 (r : ℚ) :
    dashboardSuccessRateValue r = settingsSuccessRateValue r ↔ r = 0 := by
  unfold dashboardSuccessRateValue settingsSuccessRateValue
  constructor
  · intro h
    nlinarith [h]
  · intro h
    simp [h]

/-- C10 witness: the amended equivalence applied at `r = 0`. -/
theorem success_rate_display_C10_witness :
    dashboardSuccessRateValue 0 = settingsSuccessRateValue 0 :=
  (success_rate_display_C10 0).mpr rfl

/-- C6 counterexample: `cleanup_expired` is not the only operation that
physically removes expired rows — `clear_all` deletes a row that is expired
at time 10 (its `expires_at` is 5) and reports it in its deletion count. -/
theorem cache_clear_all_removes_expired_C6_counterexample :
    (AICache.clearAll ⟨[⟨"k", "v", 0, 5⟩], 30⟩).1.rows = []
    ∧ (AICache.clearAll ⟨[⟨"k", "v", 0, 5⟩], 30⟩).2 = 1
    ∧ ((5 : ℚ) ≤ 10 ∧ (⟨"k", "v", 0, 5⟩ : CacheRow) ∈
        ([⟨"k", "v", 0, 5⟩] : List CacheRow)) :=
  ⟨rfl, rfl, by norm_num, by simp⟩

/-- C6 (amended): `get` returns absent for a key whose expiration timestamp
is at or before the current time even though the row still physically exists
(`get` itself never deletes anything); `cleanup_expired` removes exactly the
expired rows — a row survives it iff it was present and unexpired — and
returns their count ( its count plus the surviving rows add up to the
original table).  `cleanup_expired` is however not the *only* removing
operation: `clear_all` also physically removes rows, expired ones included. -/
theorem cache_lazy_expiration_C6 (c : AICache) (now : ℚ) (k : String)
    (r : CacheRow) (hfind : c.findRow k = some r) (hexp : r.expiresAt ≤ now) :
    c.get now k = none
    ∧ (∀ row : CacheRow,
        row ∈ (c.cleanupExpired now).1.rows ↔ row ∈ c.rows ∧ now < row.expiresAt)
    ∧ (c.cleanupExpired now).2 + (c.cleanupExpired now).1.rows.length
        = c.rows.length := by
  refine ⟨?_, ?_, ?_⟩
  · simp [AICache.get, hfind, not_lt.mpr hexp]
  · intro row
    simp [AICache.cleanupExpired, List.mem_filter]
  · exact cache_filter_partition c.rows now

/-- C6 witness: lazy expiration and exact cleanup on a one-row cache whose
entry expired at time 5, observed at time 10. -/
theorem cache_lazy_expiration_C6_witness :
    AICache.get ⟨[⟨"k", "v", 0, 5⟩], 30⟩ 10 "k" = none
    ∧ (AICache.cleanupExpired ⟨[⟨"k", "v", 0, 5⟩], 30⟩ 10).2
        + (AICache.cleanupExpired ⟨[⟨"k", "v", 0, 5⟩], 30⟩ 10).1.rows.length
        = 1 := by
  have h := cache_lazy_expiration_C6 ⟨[⟨"k", "v", 0, 5⟩], 30⟩ 10 "k"
    ⟨"k", "v", 0, 5⟩ (by decide) (by norm_num)
  exact ⟨h.1, h.2.2⟩

/-- Shape of the retry loop: starting at attempt `i` with `retriesLeft`
retries allowed, some `m ≤ retriesLeft` retries happen, the waits slept are
exactly `backoffFactor * 2^a` for the attempt indices `a = i, …, i+m-1`, and
`i + m + 1` attempts have been performed in total. -/
theorem runTransportAux_shape (cfg : RetryConfig) (oracle : Nat → AttemptOutcome) :
    ∀ retriesLeft i : Nat, ∃ m, m ≤ retriesLeft
      ∧ (runTransportAux cfg oracle retriesLeft i).2.2
          = (List.range' i m).map (backoffWait cfg.backoffFactor)
      ∧ (runTransportAux cfg oracle retriesLeft i).2.1 = i + m + 1 := by
  intro retriesLeft
  induction retriesLeft with
  | zero =>
    intro i
    refine ⟨0, le_refl 0, ?_⟩
    cases ho : oracle i with
    | ok resp pt ct => simp [runTransportAux, ho]
    | httpStatus c =>
      cases hcl : classifyStatus c <;>
        simp [runTransportAux, ho, classifyOutcome, hcl]
    | transportError => simp [runTransportAux, ho, classifyOutcome]
  | succ r ih =>
    intro i
    cases ho : oracle i with
    | ok resp pt ct => exact ⟨0, Nat.zero_le _, by simp [runTransportAux, ho]⟩
    | httpStatus c =>
      cases hcl : classifyStatus c with
      | success =>
        exact ⟨0, Nat.zero_le _,
          by simp [runTransportAux, ho, classifyOutcome, hcl]⟩
      | terminal =>
        exact ⟨0, Nat.zero_le _,
          by simp [runTransportAux, ho, classifyOutcome, hcl]⟩
      | retryable =>
        obtain ⟨m, hm, hw, ha⟩ := ih (i + 1)
        refine ⟨m + 1, Nat.succ_le_succ hm, ?_, ?_⟩
        · simp [runTransportAux, ho, classifyOutcome, hcl, hw, List.range'_succ]
        · simp [runTransportAux, ho, classifyOutcome, hcl, ha]
          omega
    | transportError =>
      obtain ⟨m, hm, hw, ha⟩ := ih (i + 1)
      refine ⟨m + 1, Nat.succ_le_succ hm, ?_, ?_⟩
      · simp [runTransportAux, ho, classifyOutcome, hw, List.range'_succ]
      · simp [runTransportAux, ho, classifyOutcome, ha]
        omega

/-- C3: the wait slept before the retry with 0-based attempt index `a`
equals `backoffFactor * 2^a` seconds — the wait list of any call is exactly
that map over the indices of the retries it performs; any call makes at most
`1 + total` attempts (4 with the default of 3 retries); with the defaults the
cumulative backoff never exceeds 7 seconds; and a call whose every attempt
returns 503 makes 4 attempts and sleeps exactly 1s, 2s, 4s. -/
theorem backoff_schedule_C3 (cfg : RetryConfig) (oracle : Nat → AttemptOutcome) :
    (∃ m, m ≤ cfg.total
      ∧ (runTransport cfg oracle).2.2
          = (List.range m).map (backoffWait cfg.backoffFactor)
      ∧ (runTransport cfg oracle).2.1 = m + 1)
    ∧ (runTransport cfg oracle).2.1 ≤ 1 + cfg.total
    ∧ ((runTransport defaultRetryConfig oracle).2.2).sum ≤ 7
    ∧ runTransport defaultRetryConfig (fun _ => .httpStatus 503)
        = (.failure, 4, [1, 2, 4]) := by
  obtain ⟨m, hm, hw, ha⟩ := runTransportAux_shape cfg oracle cfg.total 0
  obtain ⟨md, hmd, hwd, _⟩ :=
    runTransportAux_shape defaultRetryConfig oracle defaultRetryConfig.total 0
  refine ⟨⟨m, hm, ?_, ?_⟩, ?_, ?_, ?_⟩
  · simpa [List.range_eq_range'] using hw
  · simpa using ha
  · simp [runTransport] at ha ⊢
    omega
  · have h3 : md ≤ 3 := hmd
    rw [show runTransport defaultRetryConfig oracle
          = runTransportAux defaultRetryConfig oracle defaultRetryConfig.total 0
        from rfl, hwd]
    interval_cases md <;> simp [defaultRetryConfig, backoffWait, List.range'] <;>
      norm_num
  · norm_num [runTransport, runTransportAux, classifyOutcome, classifyStatus,
      statusForcelist, defaultRetryConfig, backoffWait]

/-- C5: a status leads to the Retry step iff it is one of
429, 500, 502, 503, 504; a transport-level error (timeout, connection
failure) is retryable; any other 4xx status — the argument `c` with the
stated bounds, 400, 401 and 404 included — is terminal, and a call whose
first attempt yields it performs no retry: exactly 1 attempt, no backoff
wait, an error result, and a failed outcome recorded in the usage stats. -/
theorem retry_classification_C5 (cfg : RetryConfig) (p : Pricing)
    (s : UsageStats) (oracle : Nat → AttemptOutcome) (c : Nat)
    (h400 : 400 ≤ c) (h500 : c < 500) (hnot : c ∉ statusForcelist)
    (hor : oracle 0 = .httpStatus c) :
    (∀ code : Nat, classifyStatus code = .retryable ↔ code ∈ statusForcelist)
    ∧ classifyOutcome .transportError = .retryable
    ∧ classifyStatus c = .terminal
    ∧ transportCall cfg p s oracle
        = (.failure, addUsage s false 0 0 p, 1, []) := by
  have h2xx : ¬ (200 ≤ c ∧ c < 300) := by omega
  have hterm : classifyStatus c = .terminal := by
    simp [classifyStatus, h2xx, hnot]
  refine ⟨?_, rfl, hterm, ?_⟩
  · intro code
    constructor
    · intro h
      unfold classifyStatus at h
      split_ifs at h with h1 h2
      exact h2
    · intro hm
      fin_cases hm <;> rfl
  · have hrun : runTransport cfg oracle = (.failure, 1, []) := by
      unfold runTransport
      cases cfg.total <;> simp [runTransportAux, hor, classifyOutcome, hterm]
    simp [transportCall, hrun, recordResult]

/-- C5 witness: a first attempt answered 404 under the default
configuration ends after one attempt, with no wait, a failure result and a
recorded failed request. -/
theorem retry_classification_C5_witness :
    transportCall defaultRetryConfig ⟨0, 0⟩ UsageStats.empty
        (fun _ => .httpStatus 404)
      = (.failure, addUsage UsageStats.empty false 0 0 ⟨0, 0⟩, 1, []) :=
  (retry_classification_C5 defaultRetryConfig ⟨0, 0⟩ UsageStats.empty
    (fun _ => .httpStatus 404) 404 (by norm_num) (by norm_num) (by decide)
    rfl).2.2.2

/-- Head of a rate-limited run: whatever the calls are, the first dispatch
starts no earlier than `lastCall + minInterval`. -/
theorem runCalls_head_start (I lastCall lockFree : ℚ) (cs : List CallReq) :
    ∀ t ∈ (runCalls I lastCall lockFree cs).head?, lastCall + I ≤ t.start := by
  cases cs with
  | nil => simp [runCalls]
  | cons c cs =>
    intro t ht
    simp [runCalls] at ht
    subst ht
    exact le_max_right _ _

/-- C4 counterexample: in the source's `_make_api_call` the
`last_call_time` update comes after the POST, not before it, and the lock is
held across the POST — so callers serialize on full call durations.  With
`minInterval = 0.2` and a first call that takes 2 seconds, the second
dispatch starts at `t = 2.2`, not at `t = 0.2`: the inter-start gap includes
the whole network-call duration. -/
theorem rate_limiter_record_order_C4_counterexample :
    rateLimiterEvents.indexOf .networkPost
        < rateLimiterEvents.indexOf .recordLastCallTime
    ∧ runCalls (1 / 5) (-(1 / 5)) 0 [⟨0, 2⟩, ⟨0, 0⟩]
        = [⟨0, 2⟩, ⟨11 / 5, 11 / 5⟩] := by
  constructor
  · decide
  · norm_num [runCalls, max_def]

/-- C4 (amended): for every sequence of dispatches through the Transport,
even from concurrent callers, the time between the start of dispatch `k` and
the start of dispatch `k+1` is at least `minInterval`.  This holds not
because `lastCallTime` is taken before the POST — the source records it
*after* the POST returns, still under the lock, so callers serialize on full
call durations — but because the recorded time is never earlier than the
start time: nonnegative call durations give consecutive starts at least
`minInterval` apart. -/
theorem rate_limiter_separation_C4 (I : ℚ) :
    ∀ cs : List CallReq, (∀ c ∈ cs, 0 ≤ c.duration) →
      ∀ lastCall lockFree : ℚ,
        startSeparated I (runCalls I lastCall lockFree cs) := by
  intro cs
  induction cs with
  | nil => intro _ lastCall lockFree; trivial
  | cons c cs ih =>
    intro hd lastCall lockFree
    have hdc : 0 ≤ c.duration := hd c (List.mem_cons_self _ _)
    have hd2 : ∀ x ∈ cs, 0 ≤ x.duration :=
      fun x hx => hd x (List.mem_cons_of_mem _ hx)
    cases cs with
    | nil => simp [runCalls, startSeparated]
    | cons c2 rest =>
      have htail := ih hd2
        (max (max c.ready lockFree) (lastCall + I) + c.duration)
        (max (max c.ready lockFree) (lastCall + I) + c.duration)
      refine And.intro ?_ ?_
      · calc max (max c.ready lockFree) (lastCall + I) + I
            ≤ max (max c.ready lockFree) (lastCall + I) + c.duration + I := by
              linarith
          _ ≤ max (max c2.ready
                (max (max c.ready lockFree) (lastCall + I) + c.duration))
                (max (max c.ready lockFree) (lastCall + I) + c.duration + I) :=
              le_max_right _ _
      · exact htail

/-- C4 witness: a two-call run (`minInterval = 0.2`, first call 2 s, second
1 s) whose start times are at least `0.2` apart. -/
theorem rate_limiter_separation_C4_witness :
    startSeparated (1 / 5) (runCalls (1 / 5) (-(1 / 5)) 0 [⟨0, 2⟩, ⟨0, 1⟩]) :=
  rate_limiter_separation_C4 (1 / 5) [⟨0, 2⟩, ⟨0, 1⟩]
    (by intro x hx; fin_cases hx <;> norm_num) (-(1 / 5)) 0

/-- Concatenation is additive for `countStep`. -/
theorem countStep_append (t : Step) (a b : List Step) :
    countStep t (a ++ b) = countStep t a + countStep t b := by
  induction a with
  | nil => simp [countStep]
  | cons s rest ih => simp [countStep, ih]; omega

/-- One resolution consumes the budget exactly when it dispatches an AI
call: the final budget plus the number of network dispatches recovers the
initial budget, each dispatch comes with exactly one budget decrement, and a
result is tagged `ai-call` only when a dispatch happened. -/
theorem resolve_budget_step (table : RuleTable) (cfg : RetryConfig) (p : Pricing)
    (now : ℚ) (oracle : Nat → AttemptOutcome) (st : PipelineState) (f : Finding) :
    (resolve table cfg p now oracle st f).2.1.budget
        + countStep .networkDispatch (resolve table cfg p now oracle st f).2.2
      = st.budget
    ∧ countStep .budgetDecrement (resolve table cfg p now oracle st f).2.2
        = countStep .networkDispatch (resolve table cfg p now oracle st f).2.2
    ∧ (if (resolve table cfg p now oracle st f).1.provenance = .aiCall
        then 1 else 0)
        ≤ countStep .networkDispatch (resolve table cfg p now oracle st f).2.2 := by
  unfold resolve
  cases hm : st.memCache.get now (cacheKey f) with
  | some v => simp [hm, countStep]
  | none =>
    cases hdk : st.diskCache.get now (cacheKey f) with
    | some v => simp [hm, hdk, countStep]
    | none =>
      have hai :
          (resolveAITier cfg p now oracle st f
              [.memCacheRead, .diskCacheRead, .ruleTableLookup]).2.1.budget
              + countStep .networkDispatch
                  (resolveAITier cfg p now oracle st f
                    [.memCacheRead, .diskCacheRead, .ruleTableLookup]).2.2
            = st.budget
          ∧ countStep .budgetDecrement
                (resolveAITier cfg p now oracle st f
                  [.memCacheRead, .diskCacheRead, .ruleTableLookup]).2.2
              = countStep .networkDispatch
                  (resolveAITier cfg p now oracle st f
                    [.memCacheRead, .diskCacheRead, .ruleTableLookup]).2.2
          ∧ (if (resolveAITier cfg p now oracle st f
                  [.memCacheRead, .diskCacheRead, .ruleTableLookup]).1.provenance
                = .aiCall then 1 else 0)
              ≤ countStep .networkDispatch
                  (resolveAITier cfg p now oracle st f
                    [.memCacheRead, .diskCacheRead, .ruleTableLookup]).2.2 := by
        unfold resolveAITier
        cases hb : st.budget with
        | zero => simp [hb, countStep]
        | succ b =>
          cases hc : (transportCall cfg p st.stats oracle).1 with
          | success resp pt ct => simp [hc, countStep]
          | failure => simp [hc, countStep]
      cases hr : lookupRule table f.ruleId with
      | some e =>
        cases he : e.requiresAI with
        | false => simp [hm, hdk, hr, he, countStep]
        | true => simpa [hm, hdk, hr, he] using hai
      | none => simpa [hm, hdk, hr] using hai

/-- C1: for every batch run against a state whose remaining budget is `k`,
the number of returned findings tagged `ai-call` never exceeds `k`; the
trace shows exactly one budget decrement per dispatched AI call (the final
budget plus the dispatch count equals `k`), and this holds for *every*
oracle of internal transport attempts — however many retries happen inside
one call, they cause no further decrement.  Budget decrements are
serialized, so the bound is independent of the concurrency cap. -/
theorem budget_conservation_C1 (table : RuleTable) (cfg : RetryConfig)
    (p : Pricing) (now : ℚ) (oracles : Nat → Nat → AttemptOutcome)
    (fs : List Finding) (st : PipelineState) (i0 : Nat) :
    countAICalls (resolveBatch table cfg p now oracles st i0 fs).1 ≤ st.budget
    ∧ (resolveBatch table cfg p now oracles st i0 fs).2.1.budget
        + countStep .networkDispatch
            (resolveBatch table cfg p now oracles st i0 fs).2.2
      = st.budget
    ∧ countStep .budgetDecrement
          (resolveBatch table cfg p now oracles st i0 fs).2.2
        = countStep .networkDispatch
            (resolveBatch table cfg p now oracles st i0 fs).2.2 := by
  induction fs generalizing st i0 with
  | nil => simp [resolveBatch, countAICalls, countStep]
  | cons f fs ih =>
    obtain ⟨hstep1, hstep2, hstep3⟩ :=
      resolve_budget_step table cfg p now (oracles i0) st f
    obtain ⟨ih1, ih2, ih3⟩ :=
      ih (resolve table cfg p now (oracles i0) st f).2.1 (i0 + 1)
    simp only [resolveBatch, countAICalls, countStep_append]
    refine ⟨?_, ?_, ?_⟩
    · omega
    · omega
    · omega

/-- C2 counterexample: the code consults the caches before the rule table.
For `sampleFinding`, whose rule the table marks "no AI required": with a
warm persistent cache the result is tagged `cache-hit`, not `rule-table`;
and even with both caches empty the trace opens with two cache reads — the
rule-table lookup is the third decision step, so cache reads do occur. -/
theorem tier_precedence_C2_counterexample :
    (resolve sampleTable defaultRetryConfig ⟨0, 0⟩ 1 (fun _ => .transportError)
        warmState sampleFinding).1.provenance = .cacheHit
    ∧ ¬ (resolve sampleTable defaultRetryConfig ⟨0, 0⟩ 1
          (fun _ => .transportError) warmState sampleFinding).1.provenance
        = .ruleTable
    ∧ (resolve sampleTable defaultRetryConfig ⟨0, 0⟩ 1 (fun _ => .transportError)
        emptyState sampleFinding).2.2
      = [.memCacheRead, .diskCacheRead, .ruleTableLookup] := by
  refine ⟨?_, ?_, ?_⟩
  · norm_num [resolve, warmState, emptyCache, AICache.get, AICache.findRow]
  · norm_num [resolve, warmState, emptyCache, AICache.get, AICache.findRow]
    decide
  · norm_num [resolve, emptyState, emptyCache, AICache.get, AICache.findRow,
      sampleTable, sampleFinding, lookupRule]

/-- C2 (amended): for a finding whose rule the static table marks "no AI
required", provided no unexpired cache entry exists for its key, `resolve`
returns the table's guidance tagged `rule-table`, leaves the state untouched
(no cache write, no budget use, no stats change) and performs no network
call; the decision trace is exactly a read of each cache followed by the
rule-table lookup — the table is consulted third, after the two cache
misses, not first. -/
theorem tier_precedence_C2 (table : RuleTable) (cfg : RetryConfig) (p : Pricing)
    (now : ℚ) (oracle : Nat → AttemptOutcome) (st : PipelineState) (f : Finding)
    (e : RuleEntry) (hrule : lookupRule table f.ruleId = some e)
    (hAI : e.requiresAI = false)
    (hmem : st.memCache.get now (cacheKey f) = none)
    (hdisk : st.diskCache.get now (cacheKey f) = none) :
    resolve table cfg p now oracle st f
      = (⟨f, e.guidance, .ruleTable⟩, st,
         [.memCacheRead, .diskCacheRead, .ruleTableLookup]) := by
  simp [resolve, hmem, hdisk, hrule, hAI]

/-- C2 witness: the amended statement at `sampleFinding` against
`sampleTable` with empty caches and budget available. -/
theorem tier_precedence_C2_witness :
    resolve sampleTable defaultRetryConfig ⟨0, 0⟩ 1 (fun _ => .transportError)
        emptyState sampleFinding
      = (⟨sampleFinding, "Add an accessible name to the button.", .ruleTable⟩,
         emptyState, [.memCacheRead, .diskCacheRead, .ruleTableLookup]) :=
  tier_precedence_C2 sampleTable defaultRetryConfig ⟨0, 0⟩ 1
    (fun _ => .transportError) emptyState sampleFinding
    ⟨false, "Add an accessible name to the button."⟩ rfl rfl rfl rfl

/-- Collecting task results never changes the size of the result array. -/
theorem collectInOrder_length (work : Nat → Finding → EnrichedFinding)
    (findings : List Finding) (order : List Nat) :
    ∀ acc : List (Option EnrichedFinding),
      (collectInOrder work findings order acc).length = acc.length := by
  induction order with
  | nil => intro acc; rfl
  | cons i rest ih => intro acc; simp [collectInOrder, ih]

/-- Cell `j` of the result array after collecting: the task result for
index `j` if some completed task had that index (and the slot exists),
otherwise whatever the array already held. -/
theorem collectInOrder_getElem (work : Nat → Finding → EnrichedFinding)
    (findings : List Finding) (order : List Nat) :
    ∀ (acc : List (Option EnrichedFinding)) (j : Nat),
      (collectInOrder work findings order acc)[j]?
        = if j ∈ order ∧ j < acc.length
          then some ((findings.get? j).map (work j))
          else acc[j]? := by
  induction order with
  | nil => intro acc j; simp [collectInOrder]
  | cons i rest ih =>
    intro acc j
    rw [collectInOrder, ih]
    by_cases hrest : j ∈ rest ∧ j < acc.length
    · simp [hrest.1, hrest.2]
    · have hneg : ¬ (j ∈ rest
          ∧ j < (acc.set i ((findings.get? i).map (work i))).length) := by
        simpa using hrest
      rw [if_neg hneg]
      by_cases hij : i = j
      · subst hij
        by_cases hlen : i < acc.length
        · simp [List.getElem?_set, hlen]
        · have hnone : acc[i]? = none := by
            rw [List.getElem?_eq_none]
            omega
          simp [List.getElem?_set, hlen, hnone]
      · have : (j ∈ i :: rest ∧ j < acc.length) ↔ (j ∈ rest ∧ j < acc.length) := by
          constructor
          · rintro ⟨hmem, hlt⟩
            rcases List.mem_cons.mp hmem with h | h
            · exact absurd h.symm hij
            · exact ⟨h, hlt⟩
          · rintro ⟨hmem, hlt⟩
            exact ⟨List.mem_cons_of_mem _ hmem, hlt⟩
        rw [if_neg (fun hc => hrest (this.mp hc))]
        simp [List.getElem?_set, hij]

/-- C8: the batch result has the same length as the input and the result
for `findings[i]` sits at index `i`, for every completion order of the
resolutions (any permutation of the indices) and every concurrency cap:
the returned array is exactly the input mapped positionally. -/
theorem ordering_under_concurrency_C8 (work : Nat → Finding → EnrichedFinding)
    (findings : List Finding) (maxConcurrent : Nat) (order : List Nat)
    (hperm : order.Perm (List.range findings.length)) :
    resolveAll work findings maxConcurrent order
      = (List.range findings.length).map
          (fun i => (findings.get? i).map (work i)) := by
  have hmem : ∀ j, j ∈ order ↔ j < findings.length := by
    intro j
    rw [hperm.mem_iff, List.mem_range]
  apply List.ext_getElem?
  intro j
  unfold resolveAll
  rw [collectInOrder_getElem]
  by_cases hj : j < findings.length
  · simp [hmem, hj, List.getElem?_map, List.getElem?_range]
  · have h1 : (List.range findings.length)[j]? = none :=
      List.getElem?_eq_none (by simp only [List.length_range]; omega)
    simp [hmem, hj, h1, List.getElem?_replicate]

/-- C8 witness: a two-finding batch whose second resolution finishes first
(completion order `[1, 0]`, concurrency cap 5) still returns the results in
input order. -/
theorem ordering_under_concurrency_C8_witness :
    resolveAll (fun _ f => ⟨f, "g", .fallback⟩)
        [⟨1, "a", "r1", none, none⟩, ⟨2, "b", "r2", none, none⟩] 5 [1, 0]
      = (List.range 2).map
          (fun i =>
            (([⟨1, "a", "r1", none, none⟩,
               ⟨2, "b", "r2", none, none⟩] : List Finding).get? i).map
              ((fun _ f => (⟨f, "g", .fallback⟩ : EnrichedFinding)) i)) :=
  ordering_under_concurrency_C8 (fun _ f => ⟨f, "g", .fallback⟩)
    [⟨1, "a", "r1", none, none⟩, ⟨2, "b", "r2", none, none⟩] 5 [1, 0]
    (by decide)

end AccessAI
